import Mathlib

/-!
Verification of the conversational-assistant repository (chatbot): a shallow
embedding in Lean 4 of the oracle failover client (`chatbot/llm.py`), the
per-session context buffer (`workflow/context_manager.py`), the input
pipeline (`workflow/input_processing.py`), the knowledge curation engine
(`workflow/knowledge_manager.py`), the per-turn knowledge updater
(`workflow/knowledge_update.py`) and the file helpers
(`utils/file_utils.py`).  Python strings become Lean `String`s (lengths are
counted in characters, as Python's `len` does), exceptions become `Except`,
the oracle becomes a function from the prompt text to a reply
(`Except Unit (Option String)`: an exception, a `None` reply, or a text
reply), and the document store becomes an ordered list of
(relative path, content) pairs in inventory order.
-/

namespace Chatbot

/-- Model of Python's `needle in hay` substring test. -/
def pyIn (needle hay : String) : Bool :=
  hay.toList.tails.any (fun t => needle.toList.isPrefixOf t)

/-- Model of Python's `str.strip()` (whitespace at both ends). -/
def pyStrip (s : String) : String :=
  String.mk (((s.toList.dropWhile Char.isWhitespace).reverse.dropWhile
    Char.isWhitespace).reverse)

/-- Model of Python's `str.lower()` (our inputs are ASCII or CJK; CJK has no case). -/
def pyLower (s : String) : String :=
  String.mk (s.toList.map Char.toLower)

/-- Model of `content[:n]` (Python slices count characters). -/
def pyTake (n : Nat) (s : String) : String :=
  String.mk (s.toList.take n)

/-- Model of Python's `str.split(sep)` on a single-character separator. -/
def splitOnChar (sep : Char) : List Char → List (List Char)
  | [] => [[]]
  | c :: cs =>
    let r := splitOnChar sep cs
    if c = sep then [] :: r
    else
      match r with
      | [] => [[c]]
      | h :: t => (c :: h) :: t

/-- `str.split(sep)` returning `String` pieces. -/
def pySplit (sep : Char) (s : String) : List String :=
  (splitOnChar sep s.toList).map String.mk

/-- A reply of one `invoke` call: an exception, a `None` content, or text. -/
abbrev OracleReply := Except Unit (Option String)

/-- An oracle: a fixed reply function from the prompt text sent to `invoke`. -/
abbrev Oracle := String → OracleReply

/-! ## Oracle failover client — `chatbot/llm.py`

`invoke` walks the credential pool: it uses the client at the shared cursor
`_api_key_index`; on failure it rotates the cursor (`(i+1) % n`) and retries
the same call, raising only when the last of `n` attempts fails.  The
per-credential outcome is modelled by `reply : Nat → Option String`
(`none` = the underlying call raises for that credential). -/

/-- `_rotate_api_key`: advance the shared cursor circularly. -/
def rotateApiKey (n idx : Nat) : Nat := (idx + 1) % n

deriving instance DecidableEq for Except

/-- Outcome of one `invoke` call: the returned text or the raised error, the
final value of the shared cursor, and the credential indices tried in order. -/
structure InvokeOutcome where
  result : Except String String
  cursor : Nat
  tried : List Nat
deriving DecidableEq, Repr

/-- The retry loop of `invoke`: `left` attempts remain, the shared cursor is
`idx`.  A failing attempt rotates the cursor unless it was the last attempt,
in which case the exhaustion error is raised. -/
def invokeFrom (n : Nat) (reply : Nat → Option String) : Nat → Nat → InvokeOutcome
  | _, 0 => { result := .error "调用LLM失败，所有API密钥都已尝试", cursor := 0, tried := [] }
  | idx, left + 1 =>
    match reply idx with
    | some r => { result := .ok r, cursor := idx, tried := [idx] }
    | none =>
      if left = 0 then
        { result := .error "调用LLM失败，所有API密钥都已尝试", cursor := idx, tried := [idx] }
      else
        let rest := invokeFrom n reply (rotateApiKey n idx) left
        { result := rest.result, cursor := rest.cursor, tried := idx :: rest.tried }

/-- `invoke`: `max_retries = len(DASHSCOPE_API_KEYS) = n` attempts starting
from the current shared cursor. -/
def invoke (n : Nat) (reply : Nat → Option String) (idx : Nat) : InvokeOutcome :=
  invokeFrom n reply idx n

/-- The credential pool of the spec's scenario: pool of size 3, the
underlying call fails for indices 0 and 1 and succeeds for index 2. -/
def replyC2 : Nat → Option String := fun i => if i = 2 then some "ok" else none

theorem invokeFrom_error_tried (n : Nat) (reply : Nat → Option String) :
    ∀ (left idx : Nat) (msg : String), idx < n →
      (invokeFrom n reply idx left).result = .error msg →
      (invokeFrom n reply idx left).tried =
        (List.range left).map (fun j => (idx + j) % n) := by
  intro left
  induction left with
  | zero => intro idx msg _ _; simp [invokeFrom]
  | succ k ih =>
    intro idx msg hidx herr
    cases hr : reply idx with
    | some r => simp [invokeFrom, hr] at herr
    | none =>
      by_cases hk : k = 0
      · subst hk
        simp [invokeFrom, hr, List.range_succ, Nat.mod_eq_of_lt hidx]
      · have hn : 0 < n := by omega
        have hlt : rotateApiKey n idx < n := Nat.mod_lt _ hn
        simp only [invokeFrom, hr, if_neg hk] at herr ⊢
        rw [List.range_succ_eq_map, List.map_cons, List.map_map]
        have h0 : (idx + 0) % n = idx := by
          rw [Nat.add_zero]; exact Nat.mod_eq_of_lt hidx
        rw [h0]
        congr 1
        rw [ih (rotateApiKey n idx) msg hlt herr]
        apply List.map_congr_left
        intro j _
        simp only [Function.comp, rotateApiKey]
        rw [Nat.mod_add_mod]
        congr 1
        omega

/-- Every residue below `n` appears among `(idx + j) % n` for `j < n`. -/
theorem mem_rotation_range (n idx i : Nat) (hidx : idx < n) (hi : i < n) :
    i ∈ (List.range n).map (fun j => (idx + j) % n) := by
  have hn : 0 < n := by omega
  refine List.mem_map.mpr ⟨(n + i - idx) % n, List.mem_range.mpr (Nat.mod_lt _ hn), ?_⟩
  rw [Nat.add_mod_mod]
  have : idx + (n + i - idx) = n + i := by omega
  rw [this, Nat.add_mod_left, Nat.mod_eq_of_lt hi]

/-- C2: `invoke` raises its exhaustion error only after every credential in
the pool has been tried once for the same call; and in the spec scenario
(pool of size 3, shared cursor at 0, the call fails for indices 0 and 1 and
succeeds for index 2) it returns the successful reply, the shared cursor
ends at index 2, and a subsequent `invoke` starts from index 2. -/
theorem invoke_exhausts_pool_and_scenario (n : Nat) (reply : Nat → Option String)
    (idx : Nat) (hidx : idx < n) :
    (∀ msg, (invoke n reply idx).result = .error msg →
      ∀ i, i < n → i ∈ (invoke n reply idx).tried)
    ∧ invoke 3 replyC2 0 = ⟨.ok "ok", 2, [0, 1, 2]⟩
    ∧ invoke 3 replyC2 (invoke 3 replyC2 0).cursor = ⟨.ok "ok", 2, [2]⟩ := by
  refine ⟨?_, by decide, by decide⟩
  intro msg herr i hi
  rw [invoke] at herr ⊢
  rw [invokeFrom_error_tried n reply n idx msg hidx herr]
  exact mem_rotation_range n idx i hidx hi

/-- Witness for C2 at a concrete pool: size 2, both credentials fail. -/
theorem invoke_exhausts_pool_witness :
    0 < 2 ∧ (0 ∈ (invoke 2 (fun _ => none) 0).tried ∧ 1 ∈ (invoke 2 (fun _ => none) 0).tried) := by
  refine ⟨by decide, ?_, ?_⟩
  · exact (invoke_exhausts_pool_and_scenario 2 (fun _ => none) 0 (by decide)).1
      "调用LLM失败，所有API密钥都已尝试" (by decide) 0 (by decide)
  · exact (invoke_exhausts_pool_and_scenario 2 (fun _ => none) 0 (by decide)).1
      "调用LLM失败，所有API密钥都已尝试" (by decide) 1 (by decide)

/-! ## Context manager — `workflow/context_manager.py`

One session's buffer is the ordered list of turns
`{user_input, model_response}`.  `add_to_context` appends the new turn and
then `_trim_context` pops turns from the head (oldest end) while the total
character length exceeds `max_context_length` and more than one turn
remains. -/

/-- One stored turn of a session. -/
structure Turn where
  user_input : String
  model_response : String
deriving DecidableEq, Repr

/-- `len(item["user_input"]) + len(item["model_response"])`. -/
def turnLen (t : Turn) : Nat := t.user_input.length + t.model_response.length

/-- The cumulative character length of a buffer. -/
def totalLength (l : List Turn) : Nat := (l.map turnLen).sum

/-- `_trim_context`: pop from the head while over budget and more than one
turn remains (the total is recomputed each iteration, as the Python loop
keeps `total_length` in sync with the deque). -/
def trimContext (maxLen : Nat) : List Turn → List Turn
  | [] => []
  | t :: ts =>
    if totalLength (t :: ts) > maxLen ∧ (t :: ts).length > 1 then
      trimContext maxLen ts
    else t :: ts

/-- `add_to_context`: append the new turn, then trim. -/
def addToContext (maxLen : Nat) (buf : List Turn) (u r : String) : List Turn :=
  trimContext maxLen (buf ++ [⟨u, r⟩])

/-- A whole session: `add_to_context` applied to each input pair in order,
starting from the empty buffer created on first use. -/
def runSession (maxLen : Nat) (ops : List (String × String)) : List Turn :=
  ops.foldl (fun b p => addToContext maxLen b p.1 p.2) []

theorem trimContext_suffix (maxLen : Nat) (l : List Turn) :
    trimContext maxLen l <:+ l := by
  induction l with
  | nil => simp [trimContext]
  | cons t ts ih =>
    rw [trimContext]
    split
    · exact ih.trans (List.suffix_cons t ts)
    · exact List.suffix_refl _

theorem trimContext_getLast? (maxLen : Nat) (l : List Turn) :
    (trimContext maxLen l).getLast? = l.getLast? := by
  induction l with
  | nil => rfl
  | cons t ts ih =>
    rw [trimContext]
    split
    · rename_i h
      rw [ih]
      match ts with
      | [] => simp at h
      | t' :: ts' => simp [List.getLast?_cons_cons]
    · rfl

theorem trimContext_bound (maxLen : Nat) (l : List Turn) :
    totalLength (trimContext maxLen l) ≤ maxLen ∨ (trimContext maxLen l).length ≤ 1 := by
  induction l with
  | nil => right; simp [trimContext]
  | cons t ts ih =>
    rw [trimContext]
    split
    · exact ih
    · rename_i h
      rw [not_and_or] at h
      omega

/-- C3: after any sequence of `add_to_context` calls the buffer's total
character length is at most the configured maximum, or the buffer holds
exactly one turn; and trimming only removes turns from the oldest end
(the trimmed buffer is a suffix of the pre-trim buffer), never the most
recent turn. -/
theorem context_buffer_invariant (maxLen : Nat) (ops : List (String × String)) :
    (totalLength (runSession maxLen ops) ≤ maxLen ∨ (runSession maxLen ops).length = 1)
    ∧ (∀ (buf : List Turn) (u r : String),
        addToContext maxLen buf u r <:+ buf ++ [⟨u, r⟩]
        ∧ (addToContext maxLen buf u r).getLast? = some ⟨u, r⟩) := by
  constructor
  · have hinv : ∀ (l : List Turn),
        totalLength l ≤ maxLen ∨ l.length ≤ 1 →
        totalLength (ops.foldl (fun b p => addToContext maxLen b p.1 p.2) l) ≤ maxLen
        ∨ (ops.foldl (fun b p => addToContext maxLen b p.1 p.2) l).length ≤ 1 := by
      induction ops with
      | nil => intro l h; exact h
      | cons p ps ih =>
        intro l _
        have hb := trimContext_bound maxLen (l ++ [(⟨p.1, p.2⟩ : Turn)])
        exact ih _ (by simpa [addToContext] using hb)
    have h := hinv [] (by right; simp)
    rcases h with h | h
    · exact Or.inl h
    · have h' : (runSession maxLen ops).length ≤ 1 := h
      cases hR : runSession maxLen ops with
      | nil => left; simp [totalLength]
      | cons t ts =>
        cases ts with
        | nil => right; rfl
        | cons t' ts' => rw [hR] at h'; simp at h'
  · intro buf u r
    refine ⟨trimContext_suffix maxLen _, ?_⟩
    rw [addToContext, trimContext_getLast? maxLen]
    simp

/-! ## Context-need decision — `workflow/input_processing.py`,
`determine_context_need`

If any prior turn exists the function returns `True` (after first checking
whether the current input repeats the immediately preceding user input,
case-insensitively after trimming, which also returns `True`).  Only with no
prior turn is the oracle asked a yes/no question; a `None` reply or an
exception defaults to `True`. -/

/-- `determine_context_need(user_input, summary, recent_conversations)`.
The oracle reply parameter stands for the yes/no `invoke` call made in the
empty-history branch. -/
def determineContextNeed (userInput : String) (recent : List Turn)
    (needReply : OracleReply) : Bool :=
  match recent.getLast? with
  | some last =>
    if pyLower (pyStrip userInput) = pyLower (pyStrip last.user_input) then true
    else true
  | none =>
    match needReply with
    | .error _ => true
    | .ok none => true
    | .ok (some r) => pyLower (pyStrip r) = "yes"

/-- C4: with any prior turn the decision is `true` (in particular for a
repeated identical input), independent of the oracle; only with no prior
turn does the oracle reply matter, and an oracle failure yields `true`. -/
theorem context_need_decision (userInput : String) (recent : List Turn)
    (h : recent ≠ []) :
    (∀ reply : OracleReply, determineContextNeed userInput recent reply = true)
    ∧ (∀ (ui : String) (reply : OracleReply),
        determineContextNeed ui [] reply = (match reply with
          | .error _ => true
          | .ok none => true
          | .ok (some r) => pyLower (pyStrip r) = "yes"))
    ∧ (∀ ui : String, determineContextNeed ui [] (.error ()) = true) := by
  refine ⟨?_, fun ui reply => rfl, fun ui => rfl⟩
  intro reply
  cases hl : recent.getLast? with
  | some last => simp [determineContextNeed, hl]
  | none =>
    cases recent with
    | nil => exact absurd rfl h
    | cons a as => simp [List.getLast?] at hl

/-- Witness for C4: one prior turn, repeated input, failing oracle. -/
theorem context_need_decision_witness :
    ([(⟨"你好", "hi"⟩ : Turn)] ≠ [])
    ∧ determineContextNeed "你好" [⟨"你好", "hi"⟩] (.error ()) = true := by
  refine ⟨by decide, ?_⟩
  exact (context_need_decision "你好" [⟨"你好", "hi"⟩] (by decide)).1 (.error ())

/-! ## File helpers — `utils/file_utils.py` -/

/-- The filesystem as a partial map from path to content. -/
abbrev FileSystem := String → Option String

/-- `read_file`: a path that does not exist yields the empty string. -/
def read_file (fs : FileSystem) (p : String) : String :=
  match fs p with
  | none => ""
  | some c => c

/-! ## Input pipeline — `workflow/input_processing.py` -/

/-- The built-in fallback prompt template of `assess_input_clarity`. -/
def inputClarityFallbackTemplate : String :=
  "请判断以下用户输入是否清晰明确：\"{user_input}\"\n\n如果清晰请回复\"clear\"，否则回复\"unclear\"（不要包含任何其他文本）"

/-- `prompt_template.format(user_input=...)`. -/
def formatUserInput (tpl userInput : String) : String :=
  tpl.replace "{user_input}" userInput

/-- The prompt `assess_input_clarity` sends: the template file when it is
present and non-empty, else the built-in fallback. -/
def clarityPrompt (fs : FileSystem) (userInput : String) : String :=
  let tpl0 := read_file fs "chatbot/prompt/input_clarity.txt"
  let tpl := if tpl0 = "" then inputClarityFallbackTemplate else tpl0
  formatUserInput tpl userInput

/-- `assess_input_clarity`: an oracle failure (or a `None` reply, whose
`.strip()` raises) defaults to clear. -/
def assessInputClarity (fs : FileSystem) (oracle : Oracle) (userInput : String) : Bool :=
  match oracle (clarityPrompt fs userInput) with
  | .error _ => true
  | .ok none => true
  | .ok (some r) => pyLower (pyStrip r) = "clear"

/-- One candidate intent of the clarification payload. -/
structure IntentOption where
  id : Nat
  title : String
  description : String
deriving DecidableEq, Repr

/-- The structured clarification payload of `clarify_user_intent`. -/
structure IntentsDict where
  intents : List IntentOption
  need_more_info_title : String
  need_more_info_description : String
deriving DecidableEq, Repr

/-- The decoded outcome of `json.loads` on an oracle reply. -/
inductive JsonOutcome (α : Type) where
  | parseFail
  | parsed (a : α)
deriving DecidableEq

/-- The fixed two-item fallback set of `clarify_user_intent`. -/
def fallbackIntents : IntentsDict :=
  { intents := [⟨1, "技术咨询", "用户希望了解某项技术的原理、应用或最新发展"⟩,
                ⟨2, "操作指南", "用户需要关于如何使用某个工具或完成某项任务的指导"⟩],
    need_more_info_title := "需要更多信息",
    need_more_info_description := "您的问题不够清晰，请提供更多细节" }

/-- `clarify_user_intent`: any oracle failure or parse failure substitutes
the fixed fallback set. -/
def clarifyUserIntent (reply : Except Unit (Option (JsonOutcome IntentsDict))) : IntentsDict :=
  match reply with
  | .error _ => fallbackIntents
  | .ok none => fallbackIntents
  | .ok (some .parseFail) => fallbackIntents
  | .ok (some (.parsed d)) => d

/-- The fields `rewrite_user_input` looks for in the parsed reply;
`rewritten_input = none` models a parsed value that is not a dict or lacks
the `rewritten_input` key. -/
structure RewriteFields where
  rewritten_input : Option String
  changes : List String
  reasoning : String
deriving DecidableEq

/-- The dict `rewrite_user_input` returns. -/
structure RewriteResult where
  rewritten_input : String
  changes : List String
  reasoning : String
deriving DecidableEq, Repr

/-- `rewrite_user_input`: oracle exception, `None` reply, JSON parse failure
and a missing `rewritten_input` field each fall back to the original input
with an empty changes list. -/
def rewriteUserInput (userInput : String)
    (reply : Except Unit (Option (JsonOutcome RewriteFields))) : RewriteResult :=
  match reply with
  | .error _ => ⟨userInput, [], "改写输入时出现错误"⟩
  | .ok none => ⟨userInput, [], "LLM返回空响应"⟩
  | .ok (some .parseFail) => ⟨userInput, [], "无法改写输入"⟩
  | .ok (some (.parsed f)) =>
    match f.rewritten_input with
    | none => ⟨userInput, [], "响应格式不正确"⟩
    | some r => ⟨r, f.changes, f.reasoning⟩

/-- `summarize_conversation_history`: empty history short-circuits; an
oracle exception yields the fixed placeholder; otherwise the reply is
returned as is (a `None` content stays `None`). -/
def summarizeConversationHistory (recent : List Turn) (reply : OracleReply) : Option String :=
  if recent = [] then some "这是新对话"
  else
    match reply with
    | .error _ => some "对话历史摘要"
    | .ok r => r

/-- One role-tagged context message (`content` may be Python `None`). -/
structure Msg where
  role : String
  content : Option String
deriving DecidableEq, Repr

/-- `f"用户: {conv['user_input']}\n助手: {conv['model_response']}"`. -/
def convText (t : Turn) : String :=
  "用户: " ++ t.user_input ++ "\n助手: " ++ t.model_response

/-- The reverse walk of `truncate_conversations`: newest first, stop at the
first turn that would exceed the budget; the kept turns come back in
chronological order. -/
def takeRecentWithin (maxLen : Nat) : List Turn → Nat → List Turn
  | [], _ => []
  | t :: older, acc =>
    if acc + (convText t).length > maxLen then []
    else takeRecentWithin maxLen older (acc + (convText t).length) ++ [t]

/-- `truncate_conversations`: kept turns expanded to `user`/`assistant`
message pairs. -/
def truncateConversations (recent : List Turn) (maxLen : Nat) : List Msg :=
  (takeRecentWithin maxLen recent.reverse 0).foldr
    (fun t acc => ⟨"user", some t.user_input⟩ :: ⟨"assistant", some t.model_response⟩ :: acc) []

/-- Everything one `process_user_input` call can observe: the filesystem,
the clarity oracle, the decoded intent reply, the loaded history (the loader
catches its own errors and returns a list), the summary and context-need
replies, and the outcome of the `analyze_user_preference` side effect,
which is the one sub-step whose exception reaches the top-level handler. -/
structure PipelineEnv where
  fs : FileSystem
  oracle : Oracle
  intentReply : Except Unit (Option (JsonOutcome IntentsDict))
  recent : List Turn
  summaryReply : OracleReply
  needReply : OracleReply
  prefOutcome : Except Unit Unit

/-- The first component of a pipeline result: a clarification payload
(serialized with `json.dumps` on the wire) or plain text. -/
inductive ProcessedInput where
  | clarification (d : IntentsDict)
  | text (s : String)
deriving DecidableEq, Repr

/-- The fixed top-level error text of `process_user_input`. -/
def pipelineErrorText : String := "抱歉，处理您的输入时出现了错误"

/-- The context history built in the clear branch. -/
def pipelineContext (env : PipelineEnv) (userInput : String) (maxContextLength : Nat) :
    List Msg :=
  if determineContextNeed userInput env.recent env.needReply then
    truncateConversations env.recent maxContextLength
  else
    [⟨"system", summarizeConversationHistory env.recent env.summaryReply⟩]

/-- `process_user_input`: clarity check, clarification short-circuit,
history load / summary / context-need / truncation, preference side effect,
with the top-level handler turning any escaped exception into the fixed
error text plus an empty context. -/
def processUserInput (env : PipelineEnv) (userInput : String) (maxContextLength : Nat) :
    ProcessedInput × List Msg :=
  if assessInputClarity env.fs env.oracle userInput = false then
    (.clarification (clarifyUserIntent env.intentReply), [])
  else
    match env.prefOutcome with
    | .error _ => (.text pipelineErrorText, [])
    | .ok _ => (.text userInput, pipelineContext env userInput maxContextLength)

/-- C10: `read_file` returns the empty string for every missing path, and
`assess_input_clarity` with its template file absent builds its prompt from
the built-in fallback template instead of failing. -/
theorem read_file_missing_defaults (fs : FileSystem) (p : String) (hp : fs p = none)
    (ui : String) (hc : fs "chatbot/prompt/input_clarity.txt" = none) :
    read_file fs p = ""
    ∧ clarityPrompt fs ui = formatUserInput inputClarityFallbackTemplate ui := by
  constructor
  · rw [read_file, hp]
  · simp [clarityPrompt, read_file, hc]

/-- Witness for C10 on the empty filesystem. -/
theorem read_file_missing_defaults_witness :
    ((fun _ => none : FileSystem) "docs/x.txt" = none)
    ∧ read_file (fun _ => none) "docs/x.txt" = ""
    ∧ clarityPrompt (fun _ => none) "你好" = formatUserInput inputClarityFallbackTemplate "你好" := by
  have h := read_file_missing_defaults (fun _ => none) "docs/x.txt" rfl "你好" rfl
  exact ⟨rfl, h.1, h.2⟩

/-- C8: `process_user_input` is total: for every environment its result is
either the fixed error text with an empty context (the top-level handler on
any escaped exception), a clarification payload with an empty context, or
the input text with the built context. -/
theorem process_user_input_never_raises (env : PipelineEnv) (ui : String) (maxLen : Nat) :
    processUserInput env ui maxLen = (.text pipelineErrorText, [])
    ∨ processUserInput env ui maxLen = (.clarification (clarifyUserIntent env.intentReply), [])
    ∨ processUserInput env ui maxLen = (.text ui, pipelineContext env ui maxLen) := by
  by_cases hc : assessInputClarity env.fs env.oracle ui = false
  · right; left; simp [processUserInput, hc]
  · cases hp : env.prefOutcome with
    | error e => left; simp [processUserInput, hc, hp]
    | ok u => right; right; simp [processUserInput, hc, hp]

/-- A concrete pipeline environment in which the input is judged clear. -/
def envC5 : PipelineEnv :=
  { fs := fun _ => none,
    oracle := fun _ => .ok (some "clear"),
    intentReply := .error (),
    recent := [],
    summaryReply := .ok (some "摘要"),
    needReply := .ok (some "no"),
    prefOutcome := .ok () }

/-- A rewrite reply that parses to a changed text. -/
def rewriteReplyC5 : Except Unit (Option (JsonOutcome RewriteFields)) :=
  .ok (some (.parsed ⟨some "请介绍机器学习的基本概念", ["补充了主题"], "更具体"⟩))

/-- C5 counterexample: with the input judged clear and a rewrite reply that
parses to a different text, the ready text returned by `process_user_input`
is the original input, not the rewrite's output — the pipeline never invokes
the rewrite stage (only the application layer in `app.py` does). -/
theorem pipeline_ready_text_not_rewritten :
    (processUserInput envC5 "介绍ML" 10000).1 = .text "介绍ML"
    ∧ (rewriteUserInput "介绍ML" rewriteReplyC5).rewritten_input = "请介绍机器学习的基本概念"
    ∧ (rewriteUserInput "介绍ML" rewriteReplyC5).rewritten_input ≠ "介绍ML" := by
  refine ⟨by decide, rfl, by decide⟩

/-- C5 amended: when the clarity check judges the input clear and the
preference side effect does not raise, the pipeline returns the original
input unchanged as the ready text (no rewrite is invoked); the separate
`rewrite_user_input` helper, on any failure or malformed reply, falls back
to the original input with an empty changes list, so rewriting never blocks
the turn. -/
theorem pipeline_text_original_rewrite_fallback
    (env : PipelineEnv) (ui : String) (maxLen : Nat)
    (hclear : assessInputClarity env.fs env.oracle ui = true)
    (hpref : env.prefOutcome = .ok ()) :
    (processUserInput env ui maxLen).1 = .text ui
    ∧ (∀ (orig : String) (reply : Except Unit (Option (JsonOutcome RewriteFields))),
        (reply = .error () ∨ reply = .ok none ∨ reply = .ok (some .parseFail)
          ∨ (∃ f, reply = .ok (some (.parsed f)) ∧ f.rewritten_input = none)) →
        (rewriteUserInput orig reply).rewritten_input = orig
        ∧ (rewriteUserInput orig reply).changes = []) := by
  constructor
  · simp [processUserInput, hclear, hpref]
  · intro orig reply hcase
    rcases hcase with h | h | h | ⟨f, h, hf⟩
    · subst h; exact ⟨rfl, rfl⟩
    · subst h; exact ⟨rfl, rfl⟩
    · subst h; exact ⟨rfl, rfl⟩
    · subst h; simp [rewriteUserInput, hf]

/-- Witness for the amended C5 at a concrete environment and failing reply. -/
theorem pipeline_text_original_rewrite_fallback_witness :
    assessInputClarity envC5.fs envC5.oracle "hi" = true
    ∧ envC5.prefOutcome = .ok ()
    ∧ (processUserInput envC5 "hi" 100).1 = .text "hi"
    ∧ (rewriteUserInput "hi" (.error ())).rewritten_input = "hi"
    ∧ (rewriteUserInput "hi" (.error ())).changes = [] := by
  have h := pipeline_text_original_rewrite_fallback envC5 "hi" 100 (by decide) rfl
  exact ⟨by decide, rfl, h.1, (h.2 "hi" (.error ()) (Or.inl rfl)).1,
    (h.2 "hi" (.error ()) (Or.inl rfl)).2⟩

/-! ## Per-turn knowledge update — `workflow/knowledge_update.py`

`determine_knowledge_category` calls `invoke(prompt, max_tokens=50)`, but
`invoke(user_message, model_name, conversation_id, context_history)` has no
`max_tokens` parameter: the call raises `TypeError` at the call site, the
`except` handler returns the fallback category. -/

/-- The keyword parameters `invoke` accepts besides the positional message. -/
def invokeKeywordParams : List String := ["model_name", "conversation_id", "context_history"]

/-- A Python call `invoke(prompt, **kwargs)`: a keyword not in the signature
raises `TypeError` before any oracle traffic. -/
def invokeCall (oracle : Oracle) (prompt : String) (kwargs : List String) : OracleReply :=
  if kwargs.all (fun k => invokeKeywordParams.contains k) then oracle prompt
  else .error ()

/-- Python `\w` (on the scripts appearing in this code base: ASCII
alphanumerics, underscore, CJK). -/
def isWordChar (c : Char) : Bool :=
  c.isAlphanum || c = '_' || (0x4e00 ≤ c.toNat && c.toNat ≤ 0x9fff)

/-- `re.sub(r'_+', '_', s)`: collapse runs of underscores. -/
def mergeUnderscores : List Char → List Char
  | [] => []
  | c :: cs =>
    if c = '_' then
      match mergeUnderscores cs with
      | '_' :: r => '_' :: r
      | r => '_' :: r
    else c :: mergeUnderscores cs

/-- `s.strip('_')`. -/
def stripUnderscores (cs : List Char) : List Char :=
  ((cs.dropWhile (· = '_')).reverse.dropWhile (· = '_')).reverse

/-- The category cleanup of `knowledge_update.determine_knowledge_category`:
`re.sub(r'[^\w一-鿿\-_]', '_', ...)`, collapse `_+`, strip `_`. -/
def kuCleanCategory (s : String) : String :=
  String.mk (stripUnderscores (mergeUnderscores (s.toList.map
    (fun c => if isWordChar c || c = '-' then c else '_'))))

/-- The category prompt of `knowledge_update.determine_knowledge_category`. -/
def kuCategoryPrompt (existingCategories : List String) (userInput knowledge : String) :
    String :=
  "作为ck的智能知识管理助手，您的任务是根据以下用户输入和提取的知识确定最相关的知识类别：\n现有类别: "
  ++ (if existingCategories = [] then "无" else String.intercalate ", " existingCategories)
  ++ "\n用户输入: " ++ userInput ++ "\n提取的知识: " ++ knowledge
  ++ "\n只回复类别名称，不要包含任何其他解释性文字\n请提供最恰当的类别名称："

/-- `knowledge_update.determine_knowledge_category`, including the dead
sanitisation chain behind the always-failing call. -/
def determineKnowledgeCategoryKU (oracle : Oracle) (userInput knowledge : String)
    (existingCategories : List String) : String :=
  match invokeCall oracle (kuCategoryPrompt existingCategories userInput knowledge)
      ["max_tokens"] with
  | .error _ => "未分类"
  | .ok none => "未分类"
  | .ok (some raw) =>
    let category := pyStrip raw
    if category = "" ∨ category = "无效内容" then "未分类"
    else
      let category := kuCleanCategory category
      if category.length < 1 then "未分类"
      else if category.length > 20 then pyTake 20 category
      else category

/-- What one `knowledge_update.update_knowledge_base` call observes. -/
structure KnowledgeUpdateEnv where
  oracle : Oracle
  matchedFiles : List String
  shouldReply : OracleReply
  knowledgeReply : OracleReply
  existingCategories : List String

/-- `should_update_knowledge_base`: no matches or any failure defaults to
update. -/
def shouldUpdateKnowledgeBase (matched : List String) (reply : OracleReply) : Bool :=
  if matched = [] then true
  else
    match reply with
    | .error _ => true
    | .ok none => true
    | .ok (some r) => pyLower (pyStrip r) = "yes"

/-- `knowledge_update.update_knowledge_base`: skip, raise (re-raised by its
handler), or write `docs/<category>/<category>_<timestamp>.txt`. -/
def updateKnowledgeBaseKU (env : KnowledgeUpdateEnv) (userInput modelResponse ts : String) :
    Except Unit (Option String) :=
  if shouldUpdateKnowledgeBase env.matchedFiles env.shouldReply = false then .ok none
  else
    match env.knowledgeReply with
    | .error _ => .error ()
    | .ok none => .error ()
    | .ok (some structured) =>
      let category := determineKnowledgeCategoryKU env.oracle userInput structured
        env.existingCategories
      .ok (some ("docs/" ++ category ++ "/" ++ (category ++ "_" ++ ts ++ ".txt")))

/-- C9: the category decision of the knowledge-update workflow always takes
the `TypeError` fallback `未分类`, for every oracle and every input; hence
`update_knowledge_base` either skips, re-raises, or files the note under the
`未分类` directory. -/
theorem knowledge_update_category_always_fallback
    (oracle : Oracle) (userInput knowledge : String) (cats : List String)
    (env : KnowledgeUpdateEnv) (ui resp ts : String) :
    determineKnowledgeCategoryKU oracle userInput knowledge cats = "未分类"
    ∧ (updateKnowledgeBaseKU env ui resp ts = .error ()
       ∨ updateKnowledgeBaseKU env ui resp ts = .ok none
       ∨ updateKnowledgeBaseKU env ui resp ts =
           .ok (some ("docs/" ++ "未分类" ++ "/" ++ ("未分类" ++ "_" ++ ts ++ ".txt")))) := by
  have hcat : ∀ (o : Oracle) (u k : String) (cs : List String),
      determineKnowledgeCategoryKU o u k cs = "未分类" := by
    intro o u k cs
    rfl
  refine ⟨hcat oracle userInput knowledge cats, ?_⟩
  by_cases hs : shouldUpdateKnowledgeBase env.matchedFiles env.shouldReply = false
  · right; left; simp [updateKnowledgeBaseKU, hs]
  · cases hk : env.knowledgeReply with
    | error e => left; simp [updateKnowledgeBaseKU, hs, hk]
    | ok o =>
      cases o with
      | none => left; simp [updateKnowledgeBaseKU, hs, hk]
      | some structured =>
        right; right
        simp [updateKnowledgeBaseKU, hs, hk, hcat]

/-! ## Knowledge curation engine — `workflow/knowledge_manager.py`

The knowledge store is the ordered list of text documents under the
knowledge root, each a relative path plus content, in inventory (`rglob`)
order.  Directories are implicit in the paths: `mkdir` is idempotent and
`cleanup_empty_directories` only removes empty directories, so neither
affects the documents.  The oracle is a fixed reply function on the prompt
text. -/

/-- One knowledge document: path relative to the knowledge root, content. -/
structure Doc where
  path : String
  content : String
deriving DecidableEq, Repr

/-- The knowledge store in inventory order. -/
abbrev Store := List Doc

def storeExists (store : Store) (p : String) : Bool := store.any (fun d => d.path = p)

/-- `write_file`: truncate an existing file or create a new one. -/
def storeWrite (store : Store) (p c : String) : Store :=
  if storeExists store p then store.map (fun d => if d.path = p then ⟨p, c⟩ else d)
  else store ++ [⟨p, c⟩]

/-- `Path.unlink`. -/
def storeRemove (store : Store) (p : String) : Store :=
  store.filter (fun d => ¬ d.path = p)

/-- `Path.rename`. -/
def storeRename (store : Store) (oldPath newPath : String) : Store :=
  store.map (fun d => if d.path = oldPath then ⟨newPath, d.content⟩ else d)

/-- `Path.name`: the last path component. -/
def baseName (p : String) : String := (pySplit '/' p).getLastD p

/-- The classification prompt of `determine_file_theme` (condensed; the
oracle is a function of the full text, of which filename and sample are the
varying parts). -/
def themePrompt (filename sample : String) : String :=
  "作为ck的智能知识库管理助手，请根据以下文件名和内容样本确定该文件的核心主题类别：\n文件名: "
  ++ filename ++ "\n内容样本: " ++ sample
  ++ "\n以\"一级分类/二级分类\"的格式返回，例如\"技术科学类/机器学习\"\n只回复分类结果，不要包含任何其他解释性文字\n请提供最准确的主题分类："

/-- The synonym table normalising known variant secondary labels. -/
def themeMappings : List (String × String) :=
  [("技术科学类/世界模型与AI", "技术科学类/世界模型"),
   ("技术科学类/世界模型与AI应用", "技术科学类/世界模型"),
   ("技术科学类/人工智能与世界模型", "技术科学类/世界模型"),
   ("技术科学类/人工智能世界模型", "技术科学类/世界模型"),
   ("技术科学类/世界模型应用", "技术科学类/世界模型"),
   ("技术科学类/机器学习介绍", "技术科学类/机器学习"),
   ("技术科学类/机器学习简介", "技术科学类/机器学习"),
   ("技术科学类/机器学习基础", "技术科学类/机器学习"),
   ("技术科学类/深度学习介绍", "技术科学类/深度学习"),
   ("技术科学类/深度学习简介", "技术科学类/深度学习"),
   ("技术科学类/深度学习基础", "技术科学类/深度学习"),
   ("技术科学类/自然语言处理介绍", "技术科学类/自然语言处理"),
   ("技术科学类/自然语言处理简介", "技术科学类/自然语言处理"),
   ("技术科学类/自然语言处理基础", "技术科学类/自然语言处理"),
   ("技术科学类/nlp", "技术科学类/自然语言处理"),
   ("技术科学类/nlp基础", "技术科学类/自然语言处理"),
   ("技术科学类/计算机视觉介绍", "技术科学类/计算机视觉"),
   ("技术科学类/计算机视觉基础", "技术科学类/计算机视觉"),
   ("技术科学类/cv", "技术科学类/计算机视觉"),
   ("技术科学类/cv基础", "技术科学类/计算机视觉"),
   ("技术科学类/云计算概念", "技术科学类/云计算"),
   ("技术科学类/云计算基础", "技术科学类/云计算")]

/-- `re.sub(r'[^\w一-鿿\-_/]', '', s).strip()`. -/
def cleanThemeChars (s : String) : String :=
  pyStrip (String.mk (s.toList.filter (fun c => isWordChar c || c = '-' || c = '/')))

/-- `determine_file_theme`: classify, normalise via the synonym table,
sanitise, validate the `primary/secondary` shape; every failure falls back
to `其他/未分类`. -/
def determineFileTheme (oracle : Oracle) (filename sample : String) : String :=
  match oracle (themePrompt filename sample) with
  | .error _ => "其他/未分类"
  | .ok none => "其他/未分类"
  | .ok (some raw) =>
    let theme := pyStrip raw
    if theme = "" ∨ theme.length < 1 ∨ theme.length > 50 then "其他/未分类"
    else
      let normalized := (themeMappings.lookup theme).getD theme
      let normalized := cleanThemeChars normalized
      if ¬ (normalized.toList.any (· = '/')) then "其他/未分类"
      else
        let parts := pySplit '/' normalized
        if parts.length ≠ 2 ∨ parts.headD "" = "" ∨ (parts.drop 1).headD "" = "" then
          "其他/未分类"
        else if normalized = "" ∨ normalized ∈ ["无效", "无用", "垃圾", "未定义"] then
          "其他/未分类"
        else normalized

/-- `analyze_file_themes`: `(relative_path, theme)` per document, themed
from the file name and the first 2000 characters. -/
def analyzeFileThemes (oracle : Oracle) (store : Store) : List (String × String) :=
  store.map (fun d => (d.path, determineFileTheme oracle (baseName d.path) (pyTake 2000 d.content)))

/-- The dedup key: the code hashes `content[:1000]`, so two documents share
a group exactly when their first 1000 characters agree. -/
def contentKey (c : String) : List Char := c.toList.take 1000

/-- Insert one `(key, path)` into an insertion-ordered group list (the
Python `dict` preserves insertion order). -/
def groupInsert {κ : Type} [DecidableEq κ] (groups : List (κ × List String)) (key : κ)
    (p : String) : List (κ × List String) :=
  match groups with
  | [] => [(key, [p])]
  | (k, ps) :: rest =>
    if k = key then (k, ps ++ [p]) :: rest
    else (k, ps) :: groupInsert rest key p

/-- The grouping loop over `(key, path)` items. -/
def buildGroups {κ : Type} [DecidableEq κ] (items : List (κ × String)) :
    List (κ × List String) :=
  items.foldl (fun g it => groupInsert g it.1 it.2) []

/-- `content_groups` of `identify_problematic_files`. -/
def contentGroups (docs : Store) : List (List Char × List String) :=
  buildGroups (docs.map (fun d => (contentKey d.content, d.path)))

/-- Within each group, keep the first path and mark the rest duplicate. -/
def duplicatesOf (docs : Store) : List String :=
  (contentGroups docs).foldl
    (fun acc g => if g.2.length > 1 then acc ++ g.2.drop 1 else acc) []

/-- A document is invalid when its size is under 50 characters or its
content contains a known placeholder text. -/
def isInvalidDoc (d : Doc) : Bool :=
  if d.content.length < 50 then true
  else pyIn "默认的文档内容" d.content || pyIn "示例文档" d.content

def invalidOf (docs : Store) : List String :=
  docs.foldl (fun acc d => if isInvalidDoc d then acc ++ [d.path] else acc) []

/-- `identify_problematic_files`: `(duplicates, invalid_files)`. -/
def identifyProblematicFiles (docs : Store) : List String × List String :=
  (duplicatesOf docs, invalidOf docs)

/-- The direct merge-judgement prompt of `should_merge_files` (condensed). -/
def mergeJudgePrompt (fc : List Doc) : String :=
  "作为ck的智能知识管理助手，您的任务是专业判断以下文件内容是否相似到可以智能合并的程度：\n"
  ++ String.intercalate "\n"
      ((fc.take 3).map (fun f => "文件: " ++ baseName f.path ++ "\n内容: " ++ pyTake 800 f.content))
  ++ "\n如果应该合并，只回复\"yes\"；如果不应合并，只回复\"no\"\n基于以上专业分析，您的判断是："

/-- The per-document topic-tag prompt of `should_merge_files` (condensed). -/
def topicTagPrompt (f : Doc) : String :=
  "请为以下文件内容确定一个核心主题标签（不超过6个字）：\n文件: " ++ baseName f.path
  ++ "\n内容: " ++ pyTake 500 f.content ++ "\n只回复主题标签，不要包含其他内容："

/-- Collect the topic tags; any failing or `None` reply aborts the whole
judgement (the exception reaches `should_merge_files`' handler). -/
def collectTags (oracle : Oracle) : List Doc → Option (List String)
  | [] => some []
  | f :: fs =>
    match oracle (topicTagPrompt f) with
    | .error _ => none
    | .ok none => none
    | .ok (some t) => (collectTags oracle fs).map (fun ts => pyStrip t :: ts)

/-- Tag similarity: equality or substring containment either way. -/
def tagSimilar (primary t : String) : Bool :=
  t = primary || pyIn primary t || pyIn t primary

/-- `should_merge_files`: direct yes/no for up to 3 files; tag clustering
over the first 5 otherwise (`similar_count >= len(themes) * 0.6`; for the
reachable sizes 4 and 5 the float comparison coincides with
`10 * similar ≥ 6 * len`); every failure defaults to no merge. -/
def shouldMergeFiles (oracle : Oracle) (fc : List Doc) : Bool :=
  if fc.length < 2 then false
  else if fc.length ≤ 3 then
    match oracle (mergeJudgePrompt fc) with
    | .error _ => false
    | .ok none => false
    | .ok (some r) => pyLower (pyStrip r) = "yes"
  else
    match collectTags oracle (fc.take 5) with
    | none => false
    | some tags =>
      match tags with
      | [] => false
      | primary :: _ =>
        let similar := (tags.filter (fun t => tagSimilar primary t)).length
        10 * similar ≥ 6 * tags.length

/-- The synthesis prompt of `merge_file_contents` (condensed). -/
def mergeContentPrompt (fc : List Doc) : String :=
  "请将以下多个文件内容合并为一个连贯的知识文档：\n"
  ++ String.intercalate "\n" (fc.map (fun f => "## " ++ baseName f.path ++ "\n" ++ f.content))
  ++ "\n合并要求：保留所有有价值的信息，消除重复内容，组织成逻辑清晰的结构"

/-- `merge_file_contents`: an oracle exception falls back to concatenating
the sources with separators; a `None` reply flows onward (the later
`write_file` of `None` then raises). -/
def mergeFileContents (oracle : Oracle) (fc : List Doc) : Option String :=
  match oracle (mergeContentPrompt fc) with
  | .error _ => some (String.intercalate "\n\n---\n\n" (fc.map (fun f => f.content)))
  | .ok mc => mc

/-- The merged-filename prompt of `generate_merged_filename` (condensed). -/
def mergedNamePrompt (theme : String) (fc : List Doc) : String :=
  "请根据以下文件内容为主题\"" ++ theme ++ "\"生成一个恰当的文件名：\n"
  ++ String.intercalate "\n"
      ((fc.take 2).map (fun f => "文件: " ++ baseName f.path ++ "\n内容: " ++ pyTake 300 f.content))
  ++ "\n只回复文件名，不要包含其他内容"

/-- `re.sub(r'[^\w一-鿿]', '_', s)`, collapse `_+`, strip `_`. -/
def cleanFilenameChars (s : String) : String :=
  String.mk (stripUnderscores (mergeUnderscores (s.toList.map
    (fun c => if isWordChar c then c else '_'))))

/-- `generate_merged_filename`; `ts` is `datetime.now().strftime(...)` of
the exception fallback. -/
def generateMergedFilename (oracle : Oracle) (ts theme : String) (fc : List Doc) : String :=
  match oracle (mergedNamePrompt theme fc) with
  | .error _ => theme ++ "_综合_" ++ ts ++ ".txt"
  | .ok none => theme ++ "_综合_" ++ ts ++ ".txt"
  | .ok (some raw) =>
    let filename := cleanFilenameChars (pyStrip raw)
    let filename := if filename.length < 2 then theme ++ "_综合指南" else filename
    filename ++ ".txt"

/-- `Path.stem`. -/
def stemOf (name : String) : String :=
  let parts := pySplit '.' name
  if parts.length ≤ 1 then name else String.intercalate "." parts.dropLast

/-- Whether a character list matches the whole regex `_\d{8}_?\d*`. -/
def matchesDateSuffix (cs : List Char) : Bool :=
  match cs with
  | '_' :: rest =>
    let d := rest.takeWhile Char.isDigit
    let r := rest.dropWhile Char.isDigit
    if d.length < 8 then false
    else if d.length = 8 then
      match r with
      | [] => true
      | '_' :: r2 => r2.all Char.isDigit
      | _ => false
    else r.isEmpty
  | _ => false

/-- `re.sub(r'_\d{8}_?\d*$', '', s)`: drop the earliest-starting date-like
suffix. -/
def stripDateSuffix (s : String) : String :=
  let cs := s.toList
  match (List.range cs.length).find? (fun i => matchesDateSuffix (cs.drop i)) with
  | some i => String.mk (cs.take i)
  | none => s

/-- The smart-filename prompt of `generate_smart_filename` (condensed). -/
def smartNamePrompt (filename sample : String) : String :=
  "请根据以下文件内容生成一个恰当的文件名：\n文件名: " ++ filename ++ "\n内容: " ++ sample
  ++ "\n不要包含日期、时间戳等时间相关信息\n只回复文件名，不要包含其他内容"

/-- `generate_smart_filename`: sanitise the oracle's suggestion; too-short
results fall back to the first underscore-piece of the original stem; an
oracle failure falls back to the original stem with any trailing date-like
suffix removed. -/
def generateSmartFilename (oracle : Oracle) (origPath content : String) : String :=
  match oracle (smartNamePrompt (baseName origPath) (pyTake 500 content)) with
  | .error _ =>
    let cleaned := stripDateSuffix (stemOf (baseName origPath))
    let cleaned := if cleaned.length < 2 then "未命名文件" else cleaned
    cleaned ++ ".txt"
  | .ok none =>
    let cleaned := stripDateSuffix (stemOf (baseName origPath))
    let cleaned := if cleaned.length < 2 then "未命名文件" else cleaned
    cleaned ++ ".txt"
  | .ok (some raw) =>
    let base := cleanFilenameChars (pyStrip raw)
    let base :=
      if base.length < 2 then
        let parts := pySplit '_' (stemOf (baseName origPath))
        if parts.length > 1 then parts.headD "" else "未命名文件"
      else base
    base ++ ".txt"

/-- Parse a theme into `(primary_category, secondary_category)`. -/
def themeSplit (theme : String) : String × String :=
  if theme.toList.any (· = '/') then
    let parts := pySplit '/' theme
    (parts.headD "", if parts.length > 1 then (parts.drop 1).headD "" else "其他")
  else ("其他", if ¬ theme = "" then theme else "未分类")

/-- One merge decision of `merge_similar_files`. -/
structure MergedInfo where
  theme : String
  merged_files : List String
  new_file : String
deriving DecidableEq, Repr

/-- The theme groups of `merge_similar_files` in insertion order. -/
def themeGroups (file_themes : List (String × String)) : List (String × List String) :=
  buildGroups (file_themes.map (fun ft => (ft.2, ft.1)))

/-- `merge_similar_files`: per theme group of more than one file, read the
current contents, ask whether to merge; on yes, synthesise, name and write
the consolidated document under `primary/secondary` and record the merge.
A `None` synthesis makes the write raise after truncating the target, so
the file is left empty and nothing is recorded for that theme. -/
def mergeSimilarFiles (oracle : Oracle) (ts : String) (store0 : Store)
    (file_themes : List (String × String)) : List MergedInfo × Store :=
  (themeGroups file_themes).foldl
    (fun st g =>
      let merged := st.1
      let store := st.2
      let theme := g.1
      let files := g.2
      if files.length > 1 then
        let fc := files.filterMap (fun p => store.find? (fun d => d.path = p))
        if shouldMergeFiles oracle fc then
          let mc := mergeFileContents oracle fc
          let ps := themeSplit theme
          let newName := generateMergedFilename oracle ts theme fc
          let newPath := ps.1 ++ "/" ++ ps.2 ++ "/" ++ newName
          match mc with
          | some c =>
            (merged ++ [⟨theme, fc.map (fun f => f.path), newPath⟩], storeWrite store newPath c)
          | none => (merged, storeWrite store newPath "")
        else (merged, store)
      else (merged, store))
    ([], store0)

/-- A per-path record of the reorganisation report. -/
inductive RecInfo where
  | moved (newPath theme : String)
  | deletedDup
  | deletedInvalid
  | deletedMerged (mergedTo : String)
  | created (sources : List String) (theme : String)
deriving DecidableEq, Repr

/-- The collision candidate for a given counter value. -/
def collisionCandidate (dir newFilename : String) (counter : Nat) : String :=
  let parts := pySplit '.' newFilename
  if parts.length > 1 then
    dir ++ "/" ++ (parts.headD "" ++ "_" ++ toString counter ++ "." ++ (parts.drop 1).headD "")
  else dir ++ "/" ++ (newFilename ++ "_" ++ toString counter)

/-- The `while final_new_path.exists()` loop; the fuel bound exceeds the
number of occupied paths. -/
def resolveCollisionGo (store : Store) (dir newFilename : String) :
    Nat → Nat → String → String
  | 0, _, cand => cand
  | fuel + 1, counter, cand =>
    if storeExists store cand then
      resolveCollisionGo store dir newFilename fuel (counter + 1)
        (collisionCandidate dir newFilename counter)
    else cand

def resolveCollision (store : Store) (dir newFilename : String) : String :=
  resolveCollisionGo store dir newFilename (store.length + 1) 1 (dir ++ "/" ++ newFilename)

/-- Phase 1 of `reorganize_structure`: relocate every classified document
that is not duplicate, invalid or merged, renaming it to the generated
smart filename under `primary/secondary`, with numeric-suffix collision
resolution; each move is recorded under the document's original path. -/
def reorganizeStep1 (oracle : Oracle) (file_themes : List (String × String))
    (duplicates invalid : List String) (merged : List MergedInfo)
    (st : Store × List (String × RecInfo)) : Store × List (String × RecInfo) :=
  file_themes.foldl
    (fun st ft =>
      let store := st.1
      let records := st.2
      let path := ft.1
      let theme := ft.2
      if duplicates.contains path || invalid.contains path
          || merged.any (fun m => m.merged_files.contains path) then st
      else
        match store.find? (fun d => d.path = path) with
        | none => st
        | some d =>
          let ps := themeSplit theme
          let newFilename := generateSmartFilename oracle path d.content
          let finalPath := resolveCollision store (ps.1 ++ "/" ++ ps.2) newFilename
          (storeRename store path finalPath, records ++ [(path, .moved finalPath theme)]))
    st

/-- Phase 2 of `reorganize_structure`: delete merge sources; record the
created consolidated file. -/
def reorganizeStep2 (merged : List MergedInfo)
    (st : Store × List (String × RecInfo)) : Store × List (String × RecInfo) :=
  merged.foldl
    (fun st m =>
      let st2 := m.merged_files.foldl
        (fun st p =>
          if storeExists st.1 p then
            (storeRemove st.1 p, st.2 ++ [(p, .deletedMerged m.new_file)])
          else st)
        st
      (st2.1, st2.2 ++ [(m.new_file, .created m.merged_files m.theme)]))
    st

/-- Phase 3 of `reorganize_structure`: delete duplicate and invalid files
not already recorded. -/
def reorganizeStep3 (duplicates invalid : List String)
    (st : Store × List (String × RecInfo)) : Store × List (String × RecInfo) :=
  (duplicates ++ invalid).foldl
    (fun st p =>
      if st.2.any (fun r => r.1 = p) then st
      else if storeExists st.1 p then
        (storeRemove st.1 p,
         st.2 ++ [(p, if duplicates.contains p then .deletedDup else .deletedInvalid)])
      else st)
    st

/-- `reorganize_structure` (the final empty-directory cleanup touches no
document). -/
def reorganizeStructure (oracle : Oracle) (file_themes : List (String × String))
    (duplicates invalid : List String) (merged : List MergedInfo) (store : Store) :
    Store × List (String × RecInfo) :=
  reorganizeStep3 duplicates invalid
    (reorganizeStep2 merged
      (reorganizeStep1 oracle file_themes duplicates invalid merged (store, [])))

/-- The `ReorganizationReport` returned by `organize_knowledge_base`. -/
structure Report where
  files_analyzed : Nat
  themes_identified : Nat
  duplicates_removed : Nat
  invalid_files_removed : Nat
  files_merged : Nat
  reorganized_files : Nat
  details : List (String × RecInfo)
deriving DecidableEq, Repr

/-- `len(set(...))`. -/
def countDistinct (l : List String) : Nat :=
  (l.foldl (fun acc t => if acc.contains t then acc else acc ++ [t]) []).length

/-- `organize_knowledge_base`: inventory, classify, identify problems,
merge, reorganise; returns the report and the resulting store. -/
def organizeKnowledgeBase (oracle : Oracle) (ts : String) (store : Store) : Report × Store :=
  let file_themes := analyzeFileThemes oracle store
  let pr := identifyProblematicFiles store
  let ms := mergeSimilarFiles oracle ts store file_themes
  let rs := reorganizeStructure oracle file_themes pr.1 pr.2 ms.1 ms.2
  ({ files_analyzed := store.length,
     themes_identified := countDistinct (file_themes.map (fun ft => ft.2)),
     duplicates_removed := pr.1.length,
     invalid_files_removed := pr.2.length,
     files_merged := ms.1.length,
     reorganized_files := rs.2.length,
     details := rs.2 }, rs.1)

/-- The known placeholder content of the C7 scenario. -/
def zhPlaceholder : String := "这是默认的文档内容"

/-- The two-document store of the C7 scenario. -/
def storeC7 : Store := [⟨"文档1.txt", zhPlaceholder⟩, ⟨"文档2.txt", zhPlaceholder⟩]

/-- A deterministic benign oracle: every reply is `no` (so no group is
merged; the classification reply `no` fails the `/` validation and falls
back to `其他/未分类`). -/
def oracleC7 : Oracle := fun _ => .ok (some "no")

/-- C7: on a store of two byte-identical placeholder documents, both are
tagged invalid, `invalid_files_removed = 2`, and both files are removed. -/
theorem two_placeholder_docs_removed :
    (identifyProblematicFiles storeC7).2 = ["文档1.txt", "文档2.txt"]
    ∧ (organizeKnowledgeBase oracleC7 "20250101_000000" storeC7).1.invalid_files_removed = 2
    ∧ (organizeKnowledgeBase oracleC7 "20250101_000000" storeC7).2 = [] := by
  decide

/-- A single valid document for the idempotence analysis. -/
def contentC1 : String := String.mk (List.replicate 60 'a')

def storeC1 : Store := [⟨"笔记.txt", contentC1⟩]

/-- A deterministic oracle: filename prompts get `ML`, everything else the
fixed category `Tech/ML`. -/
def oracleC1 : Oracle := fun p =>
  if pyIn "生成一个恰当的文件名" p then .ok (some "ML") else .ok (some "Tech/ML")

/-- A report record that is a move, a merge deletion, or a deletion. -/
def isMutationRec : RecInfo → Bool
  | .moved _ _ => true
  | .deletedDup => true
  | .deletedInvalid => true
  | .deletedMerged _ => true
  | .created _ _ => false

/-- C1 counterexample: with a fixed oracle reply function and a one-document
store, the second `organize_knowledge_base` run still records a mutation —
the relocate phase computes a destination equal to the file's current path,
the collision check sees it occupied, and the file is renamed again. -/
theorem organize_second_run_mutates :
    ((organizeKnowledgeBase oracleC1 "20250101_000000"
        (organizeKnowledgeBase oracleC1 "20250101_000000" storeC1).2).1.details.any
      (fun r => isMutationRec r.2)) = true := by
  decide

/-- C1 amended: batch reorganisation is not idempotent: on this store the
first run moves `笔记.txt` to `Tech/ML/ML.txt`, and the second run moves the
already-filed document again, to `Tech/ML/ML_1.txt`, so the second run's
report records a moved entry (no merges or deletions recur here, but the
move does, for every surviving document whose classification and filename
are stable). -/
theorem organize_not_idempotent :
    (organizeKnowledgeBase oracleC1 "20250101_000000" storeC1).1.details
      = [("笔记.txt", .moved "Tech/ML/ML.txt" "Tech/ML")]
    ∧ (organizeKnowledgeBase oracleC1 "20250101_000000" storeC1).2
      = [⟨"Tech/ML/ML.txt", contentC1⟩]
    ∧ (organizeKnowledgeBase oracleC1 "20250101_000000"
        (organizeKnowledgeBase oracleC1 "20250101_000000" storeC1).2).1.details
      = [("Tech/ML/ML.txt", .moved "Tech/ML/ML_1.txt" "Tech/ML")] := by
  decide

/-! ### Dedup-phase lemmas (C6) -/

/-- All paths of a group list in order. -/
def groupPaths {κ : Type} : List (κ × List String) → List String
  | [] => []
  | g :: rest => g.2 ++ groupPaths rest

/-- The tails dropped by the dedup pass. -/
def dupTails {κ : Type} : List (κ × List String) → List String
  | [] => []
  | g :: rest => g.2.drop 1 ++ dupTails rest

theorem foldl_dupTails {κ : Type} (gs : List (κ × List String)) :
    ∀ acc, gs.foldl (fun a g => if g.2.length > 1 then a ++ g.2.drop 1 else a) acc
      = acc ++ dupTails gs := by
  induction gs with
  | nil => intro acc; simp [dupTails]
  | cons g rest ih =>
    intro acc
    rw [List.foldl_cons, ih]
    by_cases h : g.2.length > 1
    · simp [dupTails, h, List.append_assoc]
    · have hd : g.2.drop 1 = [] := List.drop_eq_nil_of_le (by omega)
      simp [dupTails, h, hd]

theorem groupPaths_groupInsert {κ : Type} [DecidableEq κ] (key : κ) (p : String) :
    ∀ gs : List (κ × List String),
      List.Perm (groupPaths (groupInsert gs key p)) (groupPaths gs ++ [p]) := by
  intro gs
  induction gs with
  | nil => simp [groupInsert, groupPaths]
  | cons g rest ih =>
    obtain ⟨a, b⟩ := g
    by_cases h : a = key
    · simp only [groupInsert, if_pos h, groupPaths]
      rw [List.append_assoc, List.append_assoc]
      exact List.perm_append_comm.append_left b
    · simp only [groupInsert, if_neg h, groupPaths]
      rw [List.append_assoc]
      exact ih.append_left b

theorem foldl_groupPaths_perm {κ : Type} [DecidableEq κ] :
    ∀ (items : List (κ × String)) (gs : List (κ × List String)),
      List.Perm (groupPaths (items.foldl (fun g it => groupInsert g it.1 it.2) gs))
        (groupPaths gs ++ items.map (fun it => it.2)) := by
  intro items
  induction items with
  | nil => intro gs; simp
  | cons it rest ih =>
    intro gs
    rw [List.foldl_cons]
    refine (ih _).trans ?_
    have h1 := groupPaths_groupInsert it.1 it.2 gs
    have h2 : List.Perm (groupPaths (groupInsert gs it.1 it.2) ++ rest.map (fun it => it.2))
        ((groupPaths gs ++ [it.2]) ++ rest.map (fun it => it.2)) := h1.append_right _
    have h3 : (groupPaths gs ++ [it.2]) ++ rest.map (fun it => it.2)
        = groupPaths gs ++ (it.2 :: rest.map (fun it => it.2)) := by
      rw [List.append_assoc]; rfl
    rw [h3] at h2
    exact h2

theorem dupTails_subset {κ : Type} :
    ∀ gs : List (κ × List String), dupTails gs ⊆ groupPaths gs := by
  intro gs
  induction gs with
  | nil => simp [dupTails, groupPaths]
  | cons g rest ih =>
    simp only [dupTails, groupPaths]
    exact List.append_subset.mpr
      ⟨(List.drop_subset _ _).trans (List.subset_append_left _ _),
       ih.trans (List.subset_append_right _ _)⟩

theorem mem_groupPaths_of_mem {κ : Type} :
    ∀ (gs : List (κ × List String)) (g : κ × List String), g ∈ gs →
      ∀ x ∈ g.2, x ∈ groupPaths gs := by
  intro gs
  induction gs with
  | nil => intro g hg; simp at hg
  | cons g' rest ih =>
    intro g hg x hx
    simp only [groupPaths, List.mem_append]
    rcases List.mem_cons.mp hg with rfl | hgr
    · exact Or.inl hx
    · exact Or.inr (ih g hgr x hx)

theorem tail_mem_dupTails {κ : Type} :
    ∀ (gs : List (κ × List String)) (g : κ × List String), g ∈ gs →
      g.2.drop 1 ⊆ dupTails gs := by
  intro gs
  induction gs with
  | nil => intro g hg; simp at hg
  | cons g' rest ih =>
    intro g hg
    simp only [dupTails]
    rcases List.mem_cons.mp hg with rfl | hgr
    · exact List.subset_append_left _ _
    · exact (ih g hgr).trans (List.subset_append_right _ _)

theorem head_not_in_dupTails {κ : Type} :
    ∀ gs : List (κ × List String), (groupPaths gs).Nodup →
      ∀ g ∈ gs, ∀ q qs, g.2 = q :: qs → q ∉ dupTails gs := by
  intro gs
  induction gs with
  | nil => intro _ g hg; simp at hg
  | cons g' rest ih =>
    intro hnd g hg q qs hq
    simp only [groupPaths] at hnd
    rw [List.nodup_append] at hnd
    obtain ⟨hn1, hn2, hdisj⟩ := hnd
    intro hmem
    simp only [dupTails] at hmem
    rcases List.mem_cons.mp hg with rfl | hgr
    · rcases List.mem_append.mp hmem with h1 | h2
      · rw [hq] at h1 hn1
        simp only [List.drop_succ_cons, List.drop_zero] at h1
        exact (List.nodup_cons.mp hn1).1 h1
      · have hq2 : q ∈ g.2 := by rw [hq]; exact List.mem_cons_self _ _
        exact hdisj hq2 (dupTails_subset rest h2)
    · rcases List.mem_append.mp hmem with h1 | h2
      · have hqrest : q ∈ groupPaths rest :=
          mem_groupPaths_of_mem rest g hgr q (by rw [hq]; exact List.mem_cons_self _ _)
        exact hdisj (List.drop_subset _ _ h1) hqrest
      · exact ih hn2 g hgr q qs hq h2

theorem groupInsert_key_inv {κ : Type} [DecidableEq κ] (R : String → κ → Prop) :
    ∀ (gs : List (κ × List String)) (key : κ) (p : String),
      (∀ g ∈ gs, ∀ q ∈ g.2, R q g.1) → R p key →
      ∀ g ∈ groupInsert gs key p, ∀ q ∈ g.2, R q g.1 := by
  intro gs
  induction gs with
  | nil =>
    intro key p _ hp g hg q hq
    simp only [groupInsert, List.mem_singleton] at hg
    subst hg
    simp only [List.mem_singleton] at hq
    subst hq
    exact hp
  | cons g' rest ih =>
    intro key p hinv hp g hg q hq
    obtain ⟨a, b⟩ := g'
    by_cases h : a = key
    · simp only [groupInsert, if_pos h] at hg
      rcases List.mem_cons.mp hg with rfl | hgr
      · rcases List.mem_append.mp hq with hqb | hqp
        · exact hinv (a, b) (List.mem_cons_self _ _) q hqb
        · simp only [List.mem_singleton] at hqp
          subst hqp
          subst h
          exact hp
      · exact hinv g (List.mem_cons_of_mem _ hgr) q hq
    · simp only [groupInsert, if_neg h] at hg
      rcases List.mem_cons.mp hg with rfl | hgr
      · exact hinv (a, b) (List.mem_cons_self _ _) q hq
      · exact ih key p (fun x hx => hinv x (List.mem_cons_of_mem _ hx)) hp g hgr q hq

theorem buildGroups_key_inv {κ : Type} [DecidableEq κ] (R : String → κ → Prop) :
    ∀ (items : List (κ × String)) (gs : List (κ × List String)),
      (∀ it ∈ items, R it.2 it.1) →
      (∀ g ∈ gs, ∀ q ∈ g.2, R q g.1) →
      ∀ g ∈ items.foldl (fun g it => groupInsert g it.1 it.2) gs, ∀ q ∈ g.2, R q g.1 := by
  intro items
  induction items with
  | nil => intro gs _ hinv; exact hinv
  | cons it rest ih =>
    intro gs hR hinv
    rw [List.foldl_cons]
    exact ih _ (fun x hx => hR x (List.mem_cons_of_mem _ hx))
      (groupInsert_key_inv R gs it.1 it.2 hinv (hR it (List.mem_cons_self _ _)))

/-- Two contents agreeing on the first 1000 characters, differing at 1001. -/
def longA : String := String.mk (List.replicate 1000 'a' ++ ['b'])

def longB : String := String.mk (List.replicate 1000 'a' ++ ['c'])

set_option maxRecDepth 8000 in
/-- C6 counterexample: two documents whose full contents differ but whose
first 1000 characters agree land in the same duplicate group — the code
groups by `hash(content[:1000])`, not by exact content — and the second is
marked duplicate. -/
theorem dedup_prefix_collision :
    (identifyProblematicFiles [⟨"x.txt", longA⟩, ⟨"y.txt", longB⟩]).1 = ["y.txt"]
    ∧ longA ≠ longB := by
  decide

/-- C6 amended: dedup groups by the first 1000 characters of the content
(the hashed prefix): within each group the first document by inventory
order is kept (never marked duplicate) and every other member is marked
duplicate; and every member of a group comes from a file whose
1000-character prefix equals the group key — so grouping is by prefix
equality, not full-content equality. -/
theorem dedup_keeps_first_per_prefix_group (docs : Store)
    (hnd : (docs.map (fun d => d.path)).Nodup) :
    (∀ g ∈ contentGroups docs, ∀ q qs, g.2 = q :: qs →
        q ∉ duplicatesOf docs ∧ ∀ p ∈ qs, p ∈ duplicatesOf docs)
    ∧ (∀ g ∈ contentGroups docs, ∀ p ∈ g.2,
        ∃ d ∈ docs, d.path = p ∧ contentKey d.content = g.1) := by
  have hperm : List.Perm (groupPaths (contentGroups docs)) (docs.map (fun d => d.path)) := by
    have h := foldl_groupPaths_perm (docs.map (fun d => (contentKey d.content, d.path))) []
    simpa [contentGroups, buildGroups, groupPaths, List.map_map, Function.comp] using h
  have hnodup : (groupPaths (contentGroups docs)).Nodup := hperm.nodup_iff.mpr hnd
  have hdup : duplicatesOf docs = dupTails (contentGroups docs) := by
    rw [duplicatesOf, foldl_dupTails]
    simp
  constructor
  · intro g hg q qs hq
    constructor
    · rw [hdup]
      exact head_not_in_dupTails _ hnodup g hg q qs hq
    · intro p hp
      rw [hdup]
      refine tail_mem_dupTails _ g hg ?_
      rw [hq]
      simpa using hp
  · intro g hg p hp
    have hg' : g ∈ (docs.map (fun d => (contentKey d.content, d.path))).foldl
        (fun g it => groupInsert g it.1 it.2) [] := hg
    exact buildGroups_key_inv (fun p k => ∃ d ∈ docs, d.path = p ∧ contentKey d.content = k)
      (docs.map (fun d => (contentKey d.content, d.path))) []
      (fun it hit => by
        obtain ⟨d, hd, rfl⟩ := List.mem_map.mp hit
        exact ⟨d, hd, rfl, rfl⟩)
      (fun g hg => by simp at hg)
      g hg' p hp

set_option maxRecDepth 8000 in
/-- Witness for the amended C6 on the two-document prefix-collision store:
the first document is kept, the second is marked duplicate. -/
theorem dedup_keeps_first_witness :
    (List.map (fun d => d.path) ([⟨"x.txt", longA⟩, ⟨"y.txt", longB⟩] : Store)).Nodup
    ∧ "x.txt" ∉ duplicatesOf [⟨"x.txt", longA⟩, ⟨"y.txt", longB⟩]
    ∧ "y.txt" ∈ duplicatesOf [⟨"x.txt", longA⟩, ⟨"y.txt", longB⟩] := by
  have h := (dedup_keeps_first_per_prefix_group [⟨"x.txt", longA⟩, ⟨"y.txt", longB⟩]
      (by decide)).1 (contentKey longA, ["x.txt", "y.txt"]) (by decide)
      "x.txt" ["y.txt"] rfl
  exact ⟨by decide, h.1, h.2 "y.txt" (by decide)⟩

end Chatbot
